import Mathlib

/-!
# Verification of the `Hdf5Iterator` slice sampler

A shallow embedding of `src/data_prep/hdf5_iterator.py`: a random-slice
sampler over a grouped store of n-dimensional arrays.  The sampler holds a
catalog of items (each known by its shape), a per-instance pseudo-random
source, a shape specification and a position specification (`none` entries
are wildcards).  `Hdf5Iterator.next` models `__next__`: up to 500 attempts
of item choice, wildcard shape resolution, bounds check, offset selection,
and a sub-slice read from the external store.

The external pieces (numpy's `RandomState`, the HDF5 sub-slice read) are
modelled by a deterministic stream and a spec-level read contract; each
carries a doc comment saying exactly what it stands for.
-/

set_option autoImplicit false

/-- Shape of one stored item: its extent on each dimension. -/
abbrev ItemShape := List Nat

/-- Deterministic pseudo-random source standing in for a seeded
`np.random.RandomState`: an abstract stream of naturals together with the
index of the next draw.  Only determinism-in-seed and the range of each
draw matter to the properties below, never the concrete values. -/
structure Rng where
  stream : Nat → Nat
  idx : Nat
deriving Inhabited

/-- Advance the source past one consumed draw. -/
def Rng.bump (r : Rng) : Rng := ⟨r.stream, r.idx + 1⟩

/-- Value of the next draw, reduced into `[0, bound)`; models
`randint(bound)` (and the single draw inside `choice`), whose caller always
supplies `bound ≥ 1`. -/
def Rng.draw (r : Rng) (bound : Nat) : Nat := r.stream r.idx % bound

/-- One step of a 64-bit linear congruential generator. -/
def lcgStep (x : Nat) : Nat :=
  (6364136223846793005 * x + 1442695040888963407) % 18446744073709551616

/-- The stream of states of the generator started at `seed`. -/
def lcgStream (seed : Nat) : Nat → Nat
  | 0 => lcgStep seed
  | n + 1 => lcgStep (lcgStream seed n)

/-- Modelled stand-in for `np.random.RandomState(seed)`: a concrete
deterministic stream, a function of the seed alone. -/
def mkRng (seed : Nat) : Rng := ⟨lcgStream seed, 0⟩

/-- The grouped contents of an HDF5 file: top-level groups in enumeration
order, each holding named items (datasets), of which only the shape is
relevant here. -/
abbrev Hdf5File := List (String × List (String × ItemShape))

/-- Errors a sampling call can end in.  `noValidSlice` is the
`ValueError("Failed to find a slice...")` raised after the retry budget;
`indexError` is the `IndexError` from `next_item.shape[j]` when a wildcard
index exceeds the chosen item's rank; `emptyCatalog` is the error
`np.random.choice` raises on an empty sequence; `storeError` is an
item-store-level read failure, propagated unchanged. -/
inductive SampleError where
  | indexError
  | emptyCatalog
  | storeError
  | noValidSlice
deriving DecidableEq, Repr

/-- The observable content of one returned sample: which catalog entry was
read, that item's shape, the per-dimension `[start, stop)` ranges handed to
the store, and the shape of the array that came back.  Together with the
store contents these determine the numerical data, so equality of `Sample`s
models equality of the arrays `__next__` returns. -/
structure Sample where
  itemIdx : Nat
  itemShape : ItemShape
  slices : List (Nat × Nat)
  shape : List Nat
deriving DecidableEq, Repr

/-- The sampler state: `hdf5_path`, the flattened item catalog `h5_items`
(shapes stand in for the `group/item` names, which only serve to reach the
shapes and data), the per-instance random source `rng`, and the two
specifications `shape` and `pos` (a `none` entry is a wildcard / `None`). -/
structure Hdf5Iterator where
  hdf5_path : String
  h5_items : List ItemShape
  rng : Rng
  shape : List (Option Nat)
  pos : List (Option Nat)

/-- `__init__`: open the file, flatten the two-level grouping into the item
catalog in enumeration order, seed the per-instance random source, store the
shape specification, and store `pos` as given, defaulting to all-wildcard.
Mirroring the source, no validation relates `pos` to `shape`. -/
def Hdf5Iterator.init (hdf5_path : String) (h5 : Hdf5File)
    (shape : List (Option Nat)) (pos : Option (List (Option Nat)))
    (seed : Nat) : Hdf5Iterator :=
  { hdf5_path := hdf5_path
    h5_items := (h5.map (fun g => g.2.map (fun it => it.2))).flatten
    rng := mkRng seed
    shape := shape
    pos :=
      match pos with
      | some p => p
      | none => shape.map (fun _ => none) }

/-- The loop body's shape resolution: `shape[j] = next_item.shape[j]` for
every wildcard `j`, walking the two lists in step.  `none` is the
`IndexError` raised when a wildcard position has no corresponding item
dimension. -/
def resolveShape : List Nat → List (Option Nat) → Option (List Nat)
  | _, [] => some []
  | [], none :: _ => none
  | [], some d :: rest => (resolveShape [] rest).map (fun r => d :: r)
  | hd :: tl, none :: rest => (resolveShape tl rest).map (fun r => hd :: r)
  | _ :: tl, some d :: rest => (resolveShape tl rest).map (fun r => d :: r)

/-- The loop body's bounds check:
`any(want_dim > have_dim for have_dim, want_dim in zip(next_item.shape, shape))`. -/
def sliceTooBig (itemShape resolved : List Nat) : Bool :=
  (itemShape.zip resolved).any (fun p => decide (p.1 < p.2))

/-- Truncating three-way zip, as `zip(next_item.shape, shape, self.pos)`. -/
def zip3 : List Nat → List Nat → List (Option Nat) → List (Nat × Nat × Option Nat)
  | a :: as, b :: bs, c :: cs => (a, b, c) :: zip3 as bs cs
  | _, _, _ => []

/-- The loop body's offset selection over the zipped dimensions: a wildcard
position draws `randint(have_dim - want_dim + 1)` (the bounds check has
already put `want_dim ≤ have_dim` on every zipped dimension), a concrete
position is used directly; each dimension contributes the range
`[slice_start, slice_start + want_dim)`. -/
def chooseSlices : Rng → List (Nat × Nat × Option Nat) → List (Nat × Nat) × Rng
  | rng, [] => ([], rng)
  | rng, (hv, wt, none) :: rest =>
    ((rng.draw (hv - wt + 1), rng.draw (hv - wt + 1) + wt)
        :: (chooseSlices rng.bump rest).1,
      (chooseSlices rng.bump rest).2)
  | rng, (_, wt, some p) :: rest =>
    ((p, p + wt) :: (chooseSlices rng rest).1, (chooseSlices rng rest).2)

/-- Modelled from the spec: the external Item Store's sub-slice read
(`next_item[tuple(slices)]`), which is not part of this repository.  Per the
store contract, it returns the data of the per-dimension `[start, stop)`
ranges — dimensions beyond the supplied ranges are returned in full, as the
underlying array store does for a partial index tuple — and an invalid
explicit position (a range reaching past the item's actual extent) is a
store-level error, propagated unchanged.  Only the shape of the returned
array is represented. -/
def storeRead (itemShape : List Nat) (slices : List (Nat × Nat)) : Option (List Nat) :=
  if (itemShape.zip slices).all (fun p => decide (p.2.2 ≤ p.1)) then
    some ((itemShape.zip slices).map (fun p => p.2.2 - p.2.1)
      ++ itemShape.drop slices.length)
  else none

/-- Outcome of one iteration of the retry loop. -/
inductive AttemptResult where
  | found (s : Sample)
  | fail (e : SampleError)
  | retry
deriving Repr

/-- One iteration of the retry loop of `__next__`: choose an item uniformly
at random (one draw), resolve wildcards against its shape, retry when the
resolved shape does not fit, otherwise choose offsets and read the
sub-slice.  `fail` outcomes are the errors that propagate out of the loop
at once. -/
def Hdf5Iterator.attempt (items : List ItemShape) (shape pos : List (Option Nat))
    (rng : Rng) : AttemptResult × Rng :=
  if items.length = 0 then (.fail .emptyCatalog, rng)
  else
    let item := items.getD (rng.draw items.length) []
    match resolveShape item shape with
    | none => (.fail .indexError, rng.bump)
    | some resolved =>
      if sliceTooBig item resolved then (.retry, rng.bump)
      else
        let sl := chooseSlices rng.bump (zip3 item resolved pos)
        match storeRead item sl.1 with
        | none => (.fail .storeError, sl.2)
        | some outShape =>
          (.found ⟨rng.draw items.length, item, sl.1, outShape⟩, sl.2)

/-- `num_tries = 500`, the fixed retry budget of `__next__`. -/
def num_tries : Nat := 500

/-- The retry loop: run attempts until one returns or fails, or the budget
runs out, in which case the terminal `noValidSlice` error is raised. -/
def Hdf5Iterator.nextLoop (items : List ItemShape) (shape pos : List (Option Nat)) :
    Nat → Rng → Except SampleError Sample × Rng
  | 0, rng => (.error .noValidSlice, rng)
  | Nat.succ n, rng =>
    match Hdf5Iterator.attempt items shape pos rng with
    | (.found s, r) => (.ok s, r)
    | (.fail e, r) => (.error e, r)
    | (.retry, r) => Hdf5Iterator.nextLoop items shape pos n r

/-- `__next__`: run the retry loop with budget `num_tries`; the only state
the call writes back is the advanced random source. -/
def Hdf5Iterator.next (it : Hdf5Iterator) : Except SampleError Sample × Hdf5Iterator :=
  ((Hdf5Iterator.nextLoop it.h5_items it.shape it.pos num_tries it.rng).1,
    { it with
      rng := (Hdf5Iterator.nextLoop it.h5_items it.shape it.pos num_tries it.rng).2 })

/-- Driving the iterator `n` times (`__iter__` returns `self`, so iteration
is repeated `__next__`), collecting each call's outcome. -/
def Hdf5Iterator.sampleSeq (it : Hdf5Iterator) : Nat → List (Except SampleError Sample)
  | 0 => []
  | n + 1 =>
    (Hdf5Iterator.next it).1 :: Hdf5Iterator.sampleSeq (Hdf5Iterator.next it).2 n

/-! ## List plumbing -/

lemma get?_getD {α : Type} (l : List α) (k : Nat) (d : α) (hk : k < l.length) :
    l.get? k = some (l.getD k d) := by
  induction l generalizing k with
  | nil => simp at hk
  | cons a t ih =>
    cases k with
    | zero => rfl
    | succ n => exact ih n (Nat.lt_of_succ_lt_succ hk)

lemma zipGet {α β : Type} :
    ∀ (as : List α) (bs : List β) (j : Nat) (a : α) (b : β),
      as.get? j = some a → bs.get? j = some b → (as.zip bs).get? j = some (a, b)
  | a0 :: as, b0 :: _, 0, a, b, ha, hb => by
    obtain rfl : a0 = a := Option.some.inj ha
    obtain rfl : b0 = b := Option.some.inj hb
    rfl
  | _ :: as, _ :: bs, j + 1, a, b, ha, hb => zipGet as bs j a b ha hb
  | [], _, _, _, _, ha, _ => by simp at ha
  | _ :: _, [], _, _, _, _, hb => by simp at hb

lemma zipGet' {α β : Type} :
    ∀ (as : List α) (bs : List β) (j : Nat) (a : α) (b : β),
      (as.zip bs).get? j = some (a, b) → as.get? j = some a ∧ bs.get? j = some b
  | a0 :: _, b0 :: _, 0, a, b, h => by
    have h0 : (a0, b0) = (a, b) := Option.some.inj h
    injection h0 with h1 h2
    subst h1; subst h2
    exact ⟨rfl, rfl⟩
  | _ :: as, _ :: bs, j + 1, a, b, h => zipGet' as bs j a b h
  | [], _, _, _, _, h => by simp [List.zip] at h
  | _ :: _, [], _, _, _, h => by simp [List.zip] at h

lemma zip3_length : ∀ (as bs : List Nat) (cs : List (Option Nat)),
    (zip3 as bs cs).length = min as.length (min bs.length cs.length)
  | _ :: as, _ :: bs, _ :: cs => by
    simp only [zip3, List.length_cons, zip3_length as bs cs]
    omega
  | [], _, _ => by simp [zip3]
  | _ :: _, [], _ => by simp [zip3]
  | _ :: _, _ :: _, [] => by simp [zip3]

lemma zip3_get : ∀ (as bs : List Nat) (cs : List (Option Nat)) (j : Nat)
    (a b : Nat) (c : Option Nat),
    as.get? j = some a → bs.get? j = some b → cs.get? j = some c →
      (zip3 as bs cs).get? j = some (a, b, c)
  | a0 :: _, b0 :: _, c0 :: _, 0, a, b, c, ha, hb, hc => by
    obtain rfl : a0 = a := Option.some.inj ha
    obtain rfl : b0 = b := Option.some.inj hb
    obtain rfl : c0 = c := Option.some.inj hc
    rfl
  | _ :: as, _ :: bs, _ :: cs, j + 1, a, b, c, ha, hb, hc =>
    zip3_get as bs cs j a b c ha hb hc
  | [], _, _, _, _, _, _, ha, _, _ => by simp at ha
  | _ :: _, [], _, _, _, _, _, _, hb, _ => by simp at hb
  | _ :: _, _ :: _, [], _, _, _, _, _, _, hc => by simp at hc

lemma zip3_get' : ∀ (as bs : List Nat) (cs : List (Option Nat)) (j : Nat)
    (a b : Nat) (c : Option Nat),
    (zip3 as bs cs).get? j = some (a, b, c) →
      as.get? j = some a ∧ bs.get? j = some b ∧ cs.get? j = some c
  | a0 :: _, b0 :: _, c0 :: _, 0, a, b, c, h => by
    have h0 : (a0, b0, c0) = (a, b, c) := Option.some.inj h
    injection h0 with h1 h2
    injection h2 with h2 h3
    subst h1; subst h2; subst h3
    exact ⟨rfl, rfl, rfl⟩
  | _ :: as, _ :: bs, _ :: cs, j + 1, a, b, c, h => zip3_get' as bs cs j a b c h
  | [], _, _, _, _, _, _, h => by simp [zip3] at h
  | _ :: _, [], _, _, _, _, _, h => by simp [zip3] at h
  | _ :: _, _ :: _, [], _, _, _, _, h => by simp [zip3] at h

/-! ## Shape resolution -/

lemma resolveShape_length : ∀ (item : List Nat) (shape : List (Option Nat))
    (res : List Nat), resolveShape item shape = some res → res.length = shape.length
  | item, [], res, h => by
    simp only [resolveShape] at h
    obtain rfl : ([] : List Nat) = res := Option.some.inj h
    rfl
  | [], none :: _, _, h => by simp [resolveShape] at h
  | [], some d :: rest, res, h => by
    simp only [resolveShape, Option.map_eq_some'] at h
    obtain ⟨r, hr, rfl⟩ := h
    simp [resolveShape_length [] rest r hr]
  | _ :: tl, none :: rest, res, h => by
    simp only [resolveShape, Option.map_eq_some'] at h
    obtain ⟨r, hr, rfl⟩ := h
    simp [resolveShape_length tl rest r hr]
  | _ :: tl, some d :: rest, res, h => by
    simp only [resolveShape, Option.map_eq_some'] at h
    obtain ⟨r, hr, rfl⟩ := h
    simp [resolveShape_length tl rest r hr]

lemma resolveShape_of_le : ∀ (shape : List (Option Nat)) (item : List Nat),
    shape.length ≤ item.length → ∃ res, resolveShape item shape = some res
  | [], _, _ => ⟨[], by simp [resolveShape]⟩
  | o :: rest, [], h => by simp at h
  | o :: rest, hd :: tl, h => by
    obtain ⟨r, hr⟩ := resolveShape_of_le rest tl (Nat.le_of_succ_le_succ h)
    cases o with
    | none => exact ⟨hd :: r, by simp [resolveShape, hr]⟩
    | some d => exact ⟨d :: r, by simp [resolveShape, hr]⟩

lemma resolveShape_concrete : ∀ (item : List Nat) (shape : List (Option Nat))
    (res : List Nat) (j v : Nat), resolveShape item shape = some res →
    shape.get? j = some (some v) → res.get? j = some v
  | _, [], _, _, _, _, hj => by simp at hj
  | [], none :: _, _, _, _, h, _ => by simp [resolveShape] at h
  | [], some d :: rest, res, j, v, h, hj => by
    simp only [resolveShape, Option.map_eq_some'] at h
    obtain ⟨r, hr, rfl⟩ := h
    cases j with
    | zero =>
      obtain rfl : d = v := Option.some.inj (Option.some.inj hj)
      rfl
    | succ n => exact resolveShape_concrete [] rest r n v hr hj
  | _ :: tl, none :: rest, res, j, v, h, hj => by
    simp only [resolveShape, Option.map_eq_some'] at h
    obtain ⟨r, hr, rfl⟩ := h
    cases j with
    | zero => exact absurd (Option.some.inj hj) (by simp)
    | succ n => exact resolveShape_concrete tl rest r n v hr hj
  | _ :: tl, some d :: rest, res, j, v, h, hj => by
    simp only [resolveShape, Option.map_eq_some'] at h
    obtain ⟨r, hr, rfl⟩ := h
    cases j with
    | zero =>
      obtain rfl : d = v := Option.some.inj (Option.some.inj hj)
      rfl
    | succ n => exact resolveShape_concrete tl rest r n v hr hj

lemma resolveShape_wild : ∀ (item : List Nat) (shape : List (Option Nat))
    (res : List Nat) (j : Nat), resolveShape item shape = some res →
    shape.get? j = some none →
    ∃ hv, item.get? j = some hv ∧ res.get? j = some hv
  | _, [], _, _, _, hj => by simp at hj
  | [], none :: _, _, _, h, _ => by simp [resolveShape] at h
  | [], some d :: rest, res, j, h, hj => by
    simp only [resolveShape, Option.map_eq_some'] at h
    obtain ⟨r, hr, rfl⟩ := h
    cases j with
    | zero => exact absurd (Option.some.inj hj) (by simp)
    | succ n =>
      obtain ⟨hv, hiv, hrv⟩ := resolveShape_wild [] rest r n hr hj
      simp at hiv
  | hd :: tl, none :: rest, res, j, h, hj => by
    simp only [resolveShape, Option.map_eq_some'] at h
    obtain ⟨r, hr, rfl⟩ := h
    cases j with
    | zero => exact ⟨hd, rfl, rfl⟩
    | succ n => exact resolveShape_wild tl rest r n hr hj
  | hd :: tl, some d :: rest, res, j, h, hj => by
    simp only [resolveShape, Option.map_eq_some'] at h
    obtain ⟨r, hr, rfl⟩ := h
    cases j with
    | zero => exact absurd (Option.some.inj hj) (by simp)
    | succ n => exact resolveShape_wild tl rest r n hr hj

lemma resolveShape_map_some : ∀ (concrete : List Nat) (item : List Nat),
    resolveShape item (concrete.map some) = some concrete
  | [], _ => by simp [resolveShape]
  | d :: rest, [] => by
    simp only [List.map_cons, resolveShape, resolveShape_map_some rest []]
    rfl
  | d :: rest, _ :: tl => by
    simp only [List.map_cons, resolveShape, resolveShape_map_some rest tl]
    rfl

/-! ## Bounds check -/

lemma sliceTooBig_le (item resolved : List Nat)
    (h : sliceTooBig item resolved = false) (j hv wt : Nat)
    (hi : item.get? j = some hv) (hr : resolved.get? j = some wt) : wt ≤ hv := by
  by_contra hlt
  have hm : (hv, wt) ∈ item.zip resolved :=
    List.get?_mem (zipGet item resolved j hv wt hi hr)
  have : sliceTooBig item resolved = true := by
    simp only [sliceTooBig, List.any_eq_true]
    exact ⟨(hv, wt), hm, by simpa using Nat.lt_of_not_le hlt⟩
  simp [this] at h

lemma sliceTooBig_true_of (item resolved : List Nat) (j hv wt : Nat)
    (hi : item.get? j = some hv) (hr : resolved.get? j = some wt)
    (hlt : hv < wt) : sliceTooBig item resolved = true := by
  have hm : (hv, wt) ∈ item.zip resolved :=
    List.get?_mem (zipGet item resolved j hv wt hi hr)
  simp only [sliceTooBig, List.any_eq_true]
  exact ⟨(hv, wt), hm, by simpa using hlt⟩

lemma sliceTooBig_false_of (item resolved : List Nat)
    (h : ∀ j hv wt, item.get? j = some hv → resolved.get? j = some wt → wt ≤ hv) :
    sliceTooBig item resolved = false := by
  rw [sliceTooBig]
  rw [List.any_eq_false]
  intro p hp
  obtain ⟨j, hj⟩ := List.mem_iff_get?.mp hp
  obtain ⟨hi, hr⟩ := zipGet' item resolved j p.1 p.2 (by simpa using hj)
  simpa using Nat.not_lt_of_le (h j p.1 p.2 hi hr)

/-! ## Offset selection -/

lemma chooseSlices_length : ∀ (l : List (Nat × Nat × Option Nat)) (rng : Rng),
    ((chooseSlices rng l).1).length = l.length
  | [], _ => rfl
  | (hv, wt, none) :: rest, rng => by
    simp [chooseSlices, chooseSlices_length rest rng.bump]
  | (hv, wt, some p) :: rest, rng => by
    simp [chooseSlices, chooseSlices_length rest rng]

lemma chooseSlices_get : ∀ (l : List (Nat × Nat × Option Nat)) (rng : Rng)
    (j hv wt : Nat) (wp : Option Nat),
    l.get? j = some (hv, wt, wp) →
    ∃ st, ((chooseSlices rng l).1).get? j = some (st, st + wt) ∧
      (wp = none → st < hv - wt + 1) ∧ (∀ p, wp = some p → st = p)
  | [], _, j, _, _, _, h => by simp at h
  | (hv0, wt0, none) :: rest, rng, 0, hv, wt, wp, h => by
    have h0 : ((hv0 : Nat), (wt0, (none : Option Nat))) = (hv, wt, wp) :=
      Option.some.inj h
    injection h0 with h1 h2
    injection h2 with h2 h3
    rw [← h1, ← h2, ← h3]
    refine ⟨rng.draw (hv0 - wt0 + 1), rfl, fun _ => ?_, fun p hp => absurd hp (by simp)⟩
    exact Nat.mod_lt _ (Nat.succ_pos (hv0 - wt0))
  | (hv0, wt0, some p0) :: rest, rng, 0, hv, wt, wp, h => by
    have h0 : ((hv0 : Nat), (wt0, (some p0 : Option Nat))) = (hv, wt, wp) :=
      Option.some.inj h
    injection h0 with h1 h2
    injection h2 with h2 h3
    rw [← h1, ← h2, ← h3]
    refine ⟨p0, rfl, fun hn => absurd hn (by simp), fun p hp => ?_⟩
    exact Option.some.inj hp
  | (hv0, wt0, none) :: rest, rng, j + 1, hv, wt, wp, h => by
    obtain ⟨st, hst, hw, hp⟩ := chooseSlices_get rest rng.bump j hv wt wp h
    exact ⟨st, hst, hw, hp⟩
  | (hv0, wt0, some p0) :: rest, rng, j + 1, hv, wt, wp, h => by
    obtain ⟨st, hst, hw, hp⟩ := chooseSlices_get rest rng j hv wt wp h
    exact ⟨st, hst, hw, hp⟩

/-! ## Store read -/

lemma storeRead_eq_some {item : List Nat} {slices : List (Nat × Nat)} {out : List Nat}
    (h : storeRead item slices = some out) :
    (∀ p ∈ item.zip slices, p.2.2 ≤ p.1) ∧
      out = (item.zip slices).map (fun p => p.2.2 - p.2.1)
        ++ item.drop slices.length := by
  rw [storeRead] at h
  split at h
  case isTrue hall =>
    refine ⟨fun p hp => ?_, (Option.some.inj h).symm⟩
    simpa using List.all_eq_true.mp hall p hp
  case isFalse => exact absurd h (by simp)

lemma storeRead_of_le (item : List Nat) (slices : List (Nat × Nat))
    (h : ∀ p ∈ item.zip slices, p.2.2 ≤ p.1) :
    storeRead item slices
      = some ((item.zip slices).map (fun p => p.2.2 - p.2.1)
          ++ item.drop slices.length) := by
  have hall : (item.zip slices).all (fun p => decide (p.2.2 ≤ p.1)) = true := by
    rw [List.all_eq_true]
    intro p hp
    simpa using h p hp
  rw [storeRead, if_pos hall]

lemma storeRead_none_of (item : List Nat) (slices : List (Nat × Nat))
    (j hv st en : Nat) (hi : item.get? j = some hv)
    (hs : slices.get? j = some (st, en)) (hlt : hv < en) :
    storeRead item slices = none := by
  rw [storeRead, if_neg]
  intro hall
  have hm : (hv, (st, en)) ∈ item.zip slices :=
    List.get?_mem (zipGet _ _ j _ _ hi hs)
  have hle := List.all_eq_true.mp hall _ hm
  simp at hle
  omega

lemma storeRead_get_lt (item : List Nat) (slices : List (Nat × Nat)) (out : List Nat)
    (h : storeRead item slices = some out) (j hv st en : Nat)
    (hi : item.get? j = some hv) (hs : slices.get? j = some (st, en)) :
    out.get? j = some (en - st) := by
  obtain ⟨-, rfl⟩ := storeRead_eq_some h
  have hz : (item.zip slices).get? j = some (hv, (st, en)) := zipGet _ _ j _ _ hi hs
  obtain ⟨hj, -⟩ := List.get?_eq_some.mp hz
  rw [List.get?_append (by simpa using hj), List.get?_map, hz]
  rfl

lemma storeRead_get_ge (item : List Nat) (slices : List (Nat × Nat)) (out : List Nat)
    (h : storeRead item slices = some out) (j : Nat) (hj : slices.length ≤ j) :
    out.get? j = item.get? j := by
  obtain ⟨-, rfl⟩ := storeRead_eq_some h
  have hmaplen : ((item.zip slices).map (fun p => p.2.2 - p.2.1)).length
      = min item.length slices.length := by
    simp [List.length_zip]
  by_cases hle : slices.length ≤ item.length
  · rw [List.get?_append_right (by omega), hmaplen, List.get?_drop]
    congr 1
    omega
  · have hdrop : item.drop slices.length = [] :=
      List.drop_eq_nil_of_le (by omega)
    rw [List.get?_append_right (by omega), hdrop]
    have h2 : item.get? j = none := List.get?_eq_none.mpr (by omega)
    rw [h2]
    rfl

lemma storeRead_length (item : List Nat) (slices : List (Nat × Nat)) (out : List Nat)
    (h : storeRead item slices = some out) (hle : slices.length ≤ item.length) :
    out.length = item.length := by
  obtain ⟨-, rfl⟩ := storeRead_eq_some h
  simp only [List.length_append, List.length_map, List.length_zip, List.length_drop]
  omega

/-! ## One attempt of the retry loop -/

lemma draw_lt (rng : Rng) (b : Nat) (hb : b ≠ 0) : rng.draw b < b :=
  Nat.mod_lt _ (Nat.pos_of_ne_zero hb)

lemma attempt_found_spec (items : List ItemShape) (shape pos : List (Option Nat))
    (rng : Rng) (s : Sample) (r : Rng)
    (h : Hdf5Iterator.attempt items shape pos rng = (.found s, r)) :
    ∃ resolved,
      items.get? s.itemIdx = some s.itemShape ∧
      resolveShape s.itemShape shape = some resolved ∧
      sliceTooBig s.itemShape resolved = false ∧
      s.slices = (chooseSlices rng.bump (zip3 s.itemShape resolved pos)).1 ∧
      storeRead s.itemShape s.slices = some s.shape := by
  simp only [Hdf5Iterator.attempt] at h
  split at h
  · simp at h
  next hne =>
    split at h
    · simp at h
    next resolved heq =>
      split at h
      · simp at h
      next htb =>
        split at h
        · simp at h
        next outShape heq2 =>
          rw [Prod.mk.injEq] at h
          obtain ⟨h1, h2⟩ := h
          obtain rfl := AttemptResult.found.inj h1
          have hk : rng.draw items.length < items.length := draw_lt rng _ hne
          exact ⟨resolved, get?_getD items _ [] hk, heq,
            by simpa using htb, rfl, heq2⟩

lemma attempt_eq_of (items : List ItemShape) (shape pos : List (Option Nat))
    (rng : Rng) (res : List Nat) (hne : items.length ≠ 0)
    (hr : resolveShape (items.getD (rng.draw items.length) []) shape = some res)
    (htb : sliceTooBig (items.getD (rng.draw items.length) []) res = false) :
    Hdf5Iterator.attempt items shape pos rng =
      match storeRead (items.getD (rng.draw items.length) [])
          (chooseSlices rng.bump
            (zip3 (items.getD (rng.draw items.length) []) res pos)).1 with
      | none => (.fail .storeError,
          (chooseSlices rng.bump
            (zip3 (items.getD (rng.draw items.length) []) res pos)).2)
      | some outShape =>
        (.found ⟨rng.draw items.length, items.getD (rng.draw items.length) [],
            (chooseSlices rng.bump
              (zip3 (items.getD (rng.draw items.length) []) res pos)).1,
            outShape⟩,
          (chooseSlices rng.bump
            (zip3 (items.getD (rng.draw items.length) []) res pos)).2) := by
  have htb2 : sliceTooBig (items[rng.draw items.length]?.getD []) res = false := by
    simpa using htb
  simp only [Hdf5Iterator.attempt, if_neg hne]
  rw [hr]
  simp [htb2]

lemma attempt_retry_of (items : List ItemShape) (shape pos : List (Option Nat))
    (rng : Rng) (hne : items.length ≠ 0)
    (hres : ∀ item ∈ items, ∃ res, resolveShape item shape = some res ∧
      sliceTooBig item res = true) :
    Hdf5Iterator.attempt items shape pos rng = (.retry, rng.bump) := by
  have hk : rng.draw items.length < items.length := draw_lt rng _ hne
  have hmem : items.getD (rng.draw items.length) [] ∈ items :=
    List.get?_mem (get?_getD items _ [] hk)
  obtain ⟨res, hr, htb⟩ := hres _ hmem
  have htb2 : sliceTooBig (items[rng.draw items.length]?.getD []) res = true := by
    simpa using htb
  simp only [Hdf5Iterator.attempt, if_neg hne]
  rw [hr]
  simp [htb2]

/-! ## The retry loop -/

lemma nextLoop_ok (items : List ItemShape) (shape pos : List (Option Nat)) :
    ∀ (n : Nat) (rng r : Rng) (s : Sample),
      Hdf5Iterator.nextLoop items shape pos n rng = (.ok s, r) →
      ∃ rng0, Hdf5Iterator.attempt items shape pos rng0 = (.found s, r)
  | 0, rng, r, s, h => by
    simp only [Hdf5Iterator.nextLoop] at h
    rw [Prod.mk.injEq] at h
    exact absurd h.1 (by simp)
  | Nat.succ n, rng, r, s, h => by
    simp only [Hdf5Iterator.nextLoop] at h
    split at h
    next s1 r1 heq =>
      rw [Prod.mk.injEq] at h
      obtain ⟨h1, h2⟩ := h
      obtain rfl := Except.ok.inj h1
      exact ⟨rng, h2 ▸ heq⟩
    next e r1 heq =>
      rw [Prod.mk.injEq] at h
      exact absurd h.1 (by simp)
    next r1 heq => exact nextLoop_ok items shape pos n r1 r s h

lemma nextLoop_retry (items : List ItemShape) (shape pos : List (Option Nat))
    (hA : ∀ rng : Rng, Hdf5Iterator.attempt items shape pos rng = (.retry, rng.bump)) :
    ∀ (n : Nat) (rng : Rng),
      Hdf5Iterator.nextLoop items shape pos n rng
        = (.error .noValidSlice, ⟨rng.stream, rng.idx + n⟩)
  | 0, rng => by
    simp only [Hdf5Iterator.nextLoop]
    rfl
  | Nat.succ n, rng => by
    simp only [Hdf5Iterator.nextLoop]
    rw [hA rng]
    show Hdf5Iterator.nextLoop items shape pos n rng.bump = _
    rw [nextLoop_retry items shape pos hA n rng.bump]
    have harith : rng.idx + 1 + n = rng.idx + (n + 1) := by omega
    simp [Rng.bump, harith]

/-! ## Full sampling calls -/

lemma nextLoop_found (items : List ItemShape) (shape pos : List (Option Nat))
    (n : Nat) (rng r : Rng) (s : Sample)
    (h : Hdf5Iterator.attempt items shape pos rng = (.found s, r)) :
    Hdf5Iterator.nextLoop items shape pos (Nat.succ n) rng = (.ok s, r) := by
  simp only [Hdf5Iterator.nextLoop]
  rw [h]

lemma nextLoop_fail (items : List ItemShape) (shape pos : List (Option Nat))
    (n : Nat) (rng r : Rng) (e : SampleError)
    (h : Hdf5Iterator.attempt items shape pos rng = (.fail e, r)) :
    Hdf5Iterator.nextLoop items shape pos (Nat.succ n) rng = (.error e, r) := by
  simp only [Hdf5Iterator.nextLoop]
  rw [h]

lemma next_ok_of_attempt (it : Hdf5Iterator) (s : Sample) (r : Rng)
    (h : Hdf5Iterator.attempt it.h5_items it.shape it.pos it.rng = (.found s, r)) :
    (Hdf5Iterator.next it).1 = .ok s := by
  show (Hdf5Iterator.nextLoop it.h5_items it.shape it.pos num_tries it.rng).1 = .ok s
  rw [show num_tries = Nat.succ 499 from rfl,
    nextLoop_found it.h5_items it.shape it.pos 499 it.rng r s h]

lemma next_fail_of_attempt (it : Hdf5Iterator) (e : SampleError) (r : Rng)
    (h : Hdf5Iterator.attempt it.h5_items it.shape it.pos it.rng = (.fail e, r)) :
    (Hdf5Iterator.next it).1 = .error e := by
  show (Hdf5Iterator.nextLoop it.h5_items it.shape it.pos num_tries it.rng).1 = .error e
  rw [show num_tries = Nat.succ 499 from rfl,
    nextLoop_fail it.h5_items it.shape it.pos 499 it.rng r e h]

lemma next_ok_spec (it : Hdf5Iterator) (s : Sample)
    (h : (Hdf5Iterator.next it).1 = .ok s) :
    ∃ resolved rng0,
      it.h5_items.get? s.itemIdx = some s.itemShape ∧
      resolveShape s.itemShape it.shape = some resolved ∧
      sliceTooBig s.itemShape resolved = false ∧
      s.slices = (chooseSlices rng0 (zip3 s.itemShape resolved it.pos)).1 ∧
      storeRead s.itemShape s.slices = some s.shape := by
  have hpair : Hdf5Iterator.nextLoop it.h5_items it.shape it.pos num_tries it.rng
      = (.ok s, (Hdf5Iterator.nextLoop it.h5_items it.shape it.pos num_tries it.rng).2) := by
    have h1 : (Hdf5Iterator.nextLoop it.h5_items it.shape it.pos num_tries it.rng).1
        = .ok s := h
    exact Prod.ext h1 rfl
  obtain ⟨rng0, hat⟩ := nextLoop_ok it.h5_items it.shape it.pos num_tries it.rng _ s hpair
  obtain ⟨resolved, hmem, hres, htb, hsl, hsr⟩ :=
    attempt_found_spec it.h5_items it.shape it.pos rng0 s _ hat
  exact ⟨resolved, rng0.bump, hmem, hres, htb, hsl, hsr⟩

lemma get?_of_lt {α : Type} (l : List α) (j : Nat) (hj : j < l.length) :
    ∃ a, l.get? j = some a := by
  cases h : l.get? j with
  | none =>
    rw [List.get?_eq_none] at h
    omega
  | some a => exact ⟨a, rfl⟩

lemma resolved_fits (items : List ItemShape) (shape : List (Option Nat))
    (item res : List Nat) (hmem : item ∈ items)
    (hfit : ∀ item ∈ items, ∀ j v hv, shape.get? j = some (some v) →
      item.get? j = some hv → v ≤ hv)
    (hr : resolveShape item shape = some res) :
    ∀ j hv wt, item.get? j = some hv → res.get? j = some wt → wt ≤ hv := by
  intro j hv wt hi hw
  have hjres : j < res.length := (List.get?_eq_some.mp hw).fst
  have hreslen := resolveShape_length _ _ _ hr
  obtain ⟨o, ho⟩ := get?_of_lt shape j (by omega)
  cases o with
  | none =>
    obtain ⟨hv2, hi2, hr2⟩ := resolveShape_wild _ _ _ j hr ho
    rw [hi] at hi2
    obtain rfl := Option.some.inj hi2
    rw [hw] at hr2
    obtain rfl := Option.some.inj hr2
    exact Nat.le_refl _
  | some v =>
    have hrc := resolveShape_concrete _ _ _ j v hr ho
    rw [hw] at hrc
    obtain rfl := Option.some.inj hrc
    exact hfit _ hmem j wt hv ho hi

lemma attempt_success (items : List ItemShape) (shape pos : List (Option Nat))
    (rng : Rng) (hne : items.length ≠ 0)
    (hlen : ∀ item ∈ items, shape.length ≤ item.length)
    (hpos : ∀ o ∈ pos, o = none)
    (hfit : ∀ item ∈ items, ∀ j v hv, shape.get? j = some (some v) →
      item.get? j = some hv → v ≤ hv) :
    ∃ s r, Hdf5Iterator.attempt items shape pos rng = (.found s, r) := by
  have hk : rng.draw items.length < items.length := draw_lt rng _ hne
  have hmem : items.getD (rng.draw items.length) [] ∈ items :=
    List.get?_mem (get?_getD items _ [] hk)
  obtain ⟨res, hr⟩ := resolveShape_of_le shape _ (hlen _ hmem)
  have hle := resolved_fits items shape _ res hmem hfit hr
  have htb : sliceTooBig (items.getD (rng.draw items.length) []) res = false :=
    sliceTooBig_false_of _ _ hle
  have hread : ∀ q ∈ (items.getD (rng.draw items.length) []).zip
      ((chooseSlices rng.bump
        (zip3 (items.getD (rng.draw items.length) []) res pos)).1),
      q.2.2 ≤ q.1 := by
    intro q hq
    obtain ⟨j, hj⟩ := List.mem_iff_get?.mp hq
    obtain ⟨hi, hs⟩ := zipGet' _ _ j q.1 q.2 hj
    have hjlen : j < (zip3 (items.getD (rng.draw items.length) []) res pos).length := by
      have h1 := (List.get?_eq_some.mp hs).fst
      rwa [chooseSlices_length] at h1
    obtain ⟨t, ht⟩ := get?_of_lt _ j hjlen
    obtain ⟨hti, htr, htp⟩ := zip3_get' _ _ _ j t.1 t.2.1 t.2.2 ht
    have hwp : t.2.2 = none := hpos _ (List.get?_mem htp)
    have hwle : t.2.1 ≤ t.1 := hle j t.1 t.2.1 hti htr
    obtain ⟨st, hst, hw, -⟩ := chooseSlices_get _ rng.bump j t.1 t.2.1 t.2.2 ht
    have hst2 : st < t.1 - t.2.1 + 1 := hw hwp
    rw [hs] at hst
    have hq2 : q.2 = (st, st + t.2.1) := Option.some.inj hst
    have hq1 : q.1 = t.1 := by
      rw [hi] at hti
      exact Option.some.inj hti
    rw [hq2, hq1]
    show st + t.2.1 ≤ t.1
    omega
  have heq := attempt_eq_of items shape pos rng res hne hr htb
  rw [storeRead_of_le _ _ hread] at heq
  exact ⟨_, _, heq⟩

lemma attempt_fail_store (items : List ItemShape) (shape pos : List (Option Nat))
    (rng : Rng) (j p v : Nat) (hne : items.length ≠ 0)
    (hlen : ∀ item ∈ items, shape.length ≤ item.length)
    (hfit : ∀ item ∈ items, ∀ k w hv, shape.get? k = some (some w) →
      item.get? k = some hv → w ≤ hv)
    (hsj : shape.get? j = some (some v))
    (hpj : pos.get? j = some (some p))
    (hbig : ∀ item ∈ items, ∀ hv, item.get? j = some hv → hv < p + v) :
    ∃ r, Hdf5Iterator.attempt items shape pos rng = (.fail .storeError, r) := by
  have hk : rng.draw items.length < items.length := draw_lt rng _ hne
  have hmem : items.getD (rng.draw items.length) [] ∈ items :=
    List.get?_mem (get?_getD items _ [] hk)
  obtain ⟨res, hr⟩ := resolveShape_of_le shape _ (hlen _ hmem)
  have hle := resolved_fits items shape _ res hmem hfit hr
  have htb : sliceTooBig (items.getD (rng.draw items.length) []) res = false :=
    sliceTooBig_false_of _ _ hle
  have hjlen : j < shape.length := (List.get?_eq_some.mp hsj).fst
  have hjitem : j < (items.getD (rng.draw items.length) []).length :=
    Nat.lt_of_lt_of_le hjlen (hlen _ hmem)
  obtain ⟨hv, hiv⟩ := get?_of_lt _ j hjitem
  have hrv : res.get? j = some v := resolveShape_concrete _ _ _ j v hr hsj
  have hz : (zip3 (items.getD (rng.draw items.length) []) res pos).get? j
      = some (hv, v, some p) := zip3_get _ _ _ j hv v (some p) hiv hrv hpj
  obtain ⟨st, hst, -, hpe⟩ := chooseSlices_get _ rng.bump j hv v (some p) hz
  have hstp : st = p := hpe p rfl
  have hbound : hv < p + v := hbig _ hmem hv hiv
  have hlt : hv < st + v := by omega
  have hnone : storeRead (items.getD (rng.draw items.length) [])
      ((chooseSlices rng.bump
        (zip3 (items.getD (rng.draw items.length) []) res pos)).1) = none :=
    storeRead_none_of _ _ j hv st (st + v) hiv hst hlt
  have heq := attempt_eq_of items shape pos rng res hne hr htb
  rw [hnone] at heq
  exact ⟨_, heq⟩

lemma next_all_retry (it : Hdf5Iterator)
    (hA : ∀ rng : Rng, Hdf5Iterator.attempt it.h5_items it.shape it.pos rng
      = (.retry, rng.bump)) :
    (Hdf5Iterator.next it).1 = .error .noValidSlice ∧
      (Hdf5Iterator.next it).2.rng.idx = it.rng.idx + 500 := by
  have h := nextLoop_retry it.h5_items it.shape it.pos hA num_tries it.rng
  constructor
  · show (Hdf5Iterator.nextLoop it.h5_items it.shape it.pos num_tries it.rng).1
        = Except.error SampleError.noValidSlice
    rw [h]
  · show (Hdf5Iterator.nextLoop it.h5_items it.shape it.pos num_tries it.rng).2.idx
        = it.rng.idx + 500
    rw [h]
    rfl

lemma sampleSeq_path : ∀ (n : Nat) (p1 p2 : String) (items : List ItemShape)
    (rng : Rng) (shape pos : List (Option Nat)),
    Hdf5Iterator.sampleSeq ⟨p1, items, rng, shape, pos⟩ n
      = Hdf5Iterator.sampleSeq ⟨p2, items, rng, shape, pos⟩ n
  | 0, _, _, _, _, _, _ => rfl
  | Nat.succ n, p1, p2, items, rng, shape, pos => by
    show (Hdf5Iterator.nextLoop items shape pos num_tries rng).1
        :: Hdf5Iterator.sampleSeq
          ⟨p1, items, (Hdf5Iterator.nextLoop items shape pos num_tries rng).2,
            shape, pos⟩ n
      = (Hdf5Iterator.nextLoop items shape pos num_tries rng).1
        :: Hdf5Iterator.sampleSeq
          ⟨p2, items, (Hdf5Iterator.nextLoop items shape pos num_tries rng).2,
            shape, pos⟩ n
    exact congrArg _ (sampleSeq_path n p1 p2 items _ shape pos)

lemma next_ok_shape_resolved (it : Hdf5Iterator) (s : Sample) (resolved : List Nat)
    (hok : (Hdf5Iterator.next it).1 = .ok s)
    (hres : resolveShape s.itemShape it.shape = some resolved)
    (hranke : s.itemShape.length = it.shape.length)
    (hposlen : it.pos.length = it.shape.length) :
    s.shape = resolved := by
  obtain ⟨resolved2, rng0, hmem, hres2, htb, hsl, hsr⟩ := next_ok_spec it s hok
  rw [hres] at hres2
  obtain rfl := Option.some.inj hres2
  have hreslen := resolveShape_length _ _ _ hres
  have hsll : s.slices.length = it.shape.length := by
    rw [hsl, chooseSlices_length, zip3_length, hreslen, hposlen, hranke]
    omega
  have hshlen : s.shape.length = s.itemShape.length :=
    storeRead_length _ _ _ hsr (by omega)
  apply List.ext
  intro k
  by_cases hk : k < it.shape.length
  · obtain ⟨wt, hwt⟩ := get?_of_lt resolved k (by omega)
    obtain ⟨hvk, hivk⟩ := get?_of_lt s.itemShape k (by omega)
    obtain ⟨wp, hwpk⟩ := get?_of_lt it.pos k (by omega)
    have hz := zip3_get _ _ _ k hvk wt wp hivk hwt hwpk
    obtain ⟨st, hst, -, -⟩ := chooseSlices_get _ rng0 k hvk wt wp hz
    rw [← hsl] at hst
    have hshk := storeRead_get_lt _ _ _ hsr k hvk st (st + wt) hivk hst
    rw [hshk, hwt]
    congr 1
    omega
  · have h1 : s.shape.get? k = none := List.get?_eq_none.mpr (by omega)
    have h2 : resolved.get? k = none := List.get?_eq_none.mpr (by omega)
    rw [h1, h2]

/-! ## Claims -/

/-- C1 (counterexample): constructing a sampler with a Position Specification
of length 2 against a Shape Specification of length 1 raises no error at all:
the sampler is built, and its very first `GetNextSample()` call returns a
sample normally, so no `ConfigurationError` is raised before sampling. -/
theorem c1_no_length_check_counterexample :
    (Hdf5Iterator.init "data.h5" [("g", [("d", [3, 3])])] [some 1]
        (some [some 0, some 0]) 41).pos.length
      ≠ (Hdf5Iterator.init "data.h5" [("g", [("d", [3, 3])])] [some 1]
        (some [some 0, some 0]) 41).shape.length
    ∧ (Hdf5Iterator.next (Hdf5Iterator.init "data.h5" [("g", [("d", [3, 3])])]
        [some 1] (some [some 0, some 0]) 41)).1
      = .ok ⟨0, [3, 3], [(0, 1)], [1, 3]⟩ := by
  exact ⟨by decide, rfl⟩

/-- C1 (amended): constructing with a Position Specification whose length
differs from the Shape Specification's raises no error; the constructor
performs no validation and stores both specifications exactly as supplied
(mismatched lengths are later silently truncated by the pairwise zips of the
sampling loop). -/
theorem c1_init_no_validation (path : String) (h5 : Hdf5File)
    (shape : List (Option Nat)) (pos : List (Option Nat)) (seed : Nat)
    (hlen : pos.length ≠ shape.length) :
    (Hdf5Iterator.init path h5 shape (some pos) seed).pos = pos ∧
    (Hdf5Iterator.init path h5 shape (some pos) seed).shape = shape :=
  ⟨rfl, rfl⟩

theorem c1_init_no_validation_witness :
    ([some 0, some 0] : List (Option Nat)).length ≠ ([some 1] : List (Option Nat)).length ∧
    (Hdf5Iterator.init "data.h5" [("g", [("d", [3, 3])])] [some 1]
        (some [some 0, some 0]) 41).pos = [some 0, some 0] ∧
    (Hdf5Iterator.init "data.h5" [("g", [("d", [3, 3])])] [some 1]
        (some [some 0, some 0]) 41).shape = [some 1] :=
  ⟨by decide, c1_init_no_validation "data.h5" [("g", [("d", [3, 3])])] [some 1]
    [some 0, some 0] 41 (by decide)⟩

/-- C2: when some dimension `j` carries a concrete target extent `v` that
exceeds every item's actual extent on that dimension, `GetNextSample()` fails
with the terminal `noValidSlice` error, and the random source has consumed
exactly 500 draws — one item choice per attempt, so exactly 500 attempts were
performed, each ending at the failed bounds check. -/
theorem c2_exhausted_retries (it : Hdf5Iterator) (j v : Nat)
    (hne : it.h5_items.length ≠ 0)
    (hrank : ∀ item ∈ it.h5_items, it.shape.length ≤ item.length)
    (hj : it.shape.get? j = some (some v))
    (hbig : ∀ item ∈ it.h5_items, ∀ hv, item.get? j = some hv → hv < v) :
    (Hdf5Iterator.next it).1 = .error .noValidSlice ∧
      (Hdf5Iterator.next it).2.rng.idx = it.rng.idx + 500 := by
  apply next_all_retry
  intro rng
  apply attempt_retry_of _ _ _ _ hne
  intro item hmem
  obtain ⟨res, hr⟩ := resolveShape_of_le it.shape item (hrank item hmem)
  refine ⟨res, hr, ?_⟩
  have hjlen : j < it.shape.length := (List.get?_eq_some.mp hj).fst
  have hjitem : j < item.length := Nat.lt_of_lt_of_le hjlen (hrank item hmem)
  obtain ⟨hv, hiv⟩ := get?_of_lt item j hjitem
  have hrv : res.get? j = some v := resolveShape_concrete _ _ _ j v hr hj
  exact sliceTooBig_true_of item res j hv v hiv hrv (hbig item hmem hv hiv)

theorem c2_exhausted_retries_witness :
    (Hdf5Iterator.next ⟨"f", [[2]], ⟨fun _ => 0, 0⟩, [some 5], [none]⟩).1
      = .error .noValidSlice ∧
    (Hdf5Iterator.next ⟨"f", [[2]], ⟨fun _ => 0, 0⟩, [some 5], [none]⟩).2.rng.idx
      = (⟨fun _ => 0, 0⟩ : Rng).idx + 500 :=
  c2_exhausted_retries ⟨"f", [[2]], ⟨fun _ => 0, 0⟩, [some 5], [none]⟩ 0 5
    (by decide) (by decide) (by decide) (by decide)

/-- C8: two samplers constructed over the same Item Store contents (the same
grouped file), with the same seed and the same Shape and Position
Specifications, produce identical outcome sequences when each is driven by
the same number of `GetNextSample()` calls; the random source is
per-instance, seeded once at construction. -/
theorem c8_determinism (p1 p2 : String) (h5 : Hdf5File)
    (shape : List (Option Nat)) (pos : Option (List (Option Nat)))
    (seed : Nat) (n : Nat) :
    Hdf5Iterator.sampleSeq (Hdf5Iterator.init p1 h5 shape pos seed) n
      = Hdf5Iterator.sampleSeq (Hdf5Iterator.init p2 h5 shape pos seed) n :=
  sampleSeq_path n p1 p2 _ _ _ _

/-- C9: a `GetNextSample()` call — whether it returns a sample or fails —
writes back only the advanced random source: the stored path, item catalog,
Shape Specification and Position Specification of the sampler are unchanged. -/
theorem c9_only_rng_mutated (it : Hdf5Iterator) :
    (Hdf5Iterator.next it).2.hdf5_path = it.hdf5_path ∧
    (Hdf5Iterator.next it).2.h5_items = it.h5_items ∧
    (Hdf5Iterator.next it).2.shape = it.shape ∧
    (Hdf5Iterator.next it).2.pos = it.pos :=
  ⟨rfl, rfl, rfl, rfl⟩

/-- C3: with a wildcard-free Shape Specification (the list `concrete` of
extents), the default all-wildcard Position Specification, and every
dimension's extent at most every item's actual extent (items having exactly
the specified number of dimensions), `GetNextSample()` returns a sample whose
shape equals the Shape Specification exactly. -/
theorem c3_exact_shape (it : Hdf5Iterator) (concrete : List Nat)
    (hsh : it.shape = concrete.map some)
    (hpos : it.pos = it.shape.map (fun _ => none))
    (hne : it.h5_items.length ≠ 0)
    (hrank : ∀ item ∈ it.h5_items, item.length = it.shape.length)
    (hfit : ∀ item ∈ it.h5_items, ∀ j v hv, it.shape.get? j = some (some v) →
      item.get? j = some hv → v ≤ hv) :
    ∃ s, (Hdf5Iterator.next it).1 = .ok s ∧ s.shape = concrete := by
  have hposall : ∀ o ∈ it.pos, o = none := by
    rw [hpos]
    intro o ho
    obtain ⟨x, -, hx⟩ := List.mem_map.mp ho
    exact hx.symm
  obtain ⟨s, r, hat⟩ := attempt_success it.h5_items it.shape it.pos it.rng hne
    (fun item hm => Nat.le_of_eq (hrank item hm).symm) hposall hfit
  have hok := next_ok_of_attempt it s r hat
  obtain ⟨resolved, rng0, hmem, hres, -, -, -⟩ := next_ok_spec it s hok
  have hranke : s.itemShape.length = it.shape.length := hrank _ (List.get?_mem hmem)
  have hposlen : it.pos.length = it.shape.length := by rw [hpos, List.length_map]
  have hconc : resolveShape s.itemShape it.shape = some concrete := by
    rw [hsh]
    exact resolveShape_map_some concrete s.itemShape
  exact ⟨s, hok, next_ok_shape_resolved it s concrete hok hconc hranke hposlen⟩

theorem c3_exact_shape_witness :
    (∃ s, (Hdf5Iterator.next ⟨"f", [[2, 3]], ⟨fun _ => 0, 0⟩,
        [some 1, some 2], [none, none]⟩).1 = .ok s ∧ s.shape = [1, 2]) :=
  c3_exact_shape ⟨"f", [[2, 3]], ⟨fun _ => 0, 0⟩, [some 1, some 2], [none, none]⟩
    [1, 2] (by decide) (by decide) (by decide) (by decide)
    (by
      intro item hm j v hv hsj hiv
      have hit : item = [2, 3] := by simpa using hm
      subst hit
      cases j with
      | zero =>
        have h1 : 1 = v := Option.some.inj (Option.some.inj hsj)
        have h2 : 2 = hv := Option.some.inj hiv
        omega
      | succ j1 =>
        cases j1 with
        | zero =>
          have h1 : 2 = v := Option.some.inj (Option.some.inj hsj)
          have h2 : 3 = hv := Option.some.inj hiv
          omega
        | succ j2 => exact absurd hsj (by simp))

/-- C4: every wildcard dimension `j` of the Shape Specification comes back,
in any sample `GetNextSample()` returns, with extent equal to the actual
extent on dimension `j` of the item chosen on that attempt (the sample
records the chosen catalog entry, resolved per item at sampling time). -/
theorem c4_wildcard_dims (it : Hdf5Iterator) (s : Sample) (j : Nat)
    (hok : (Hdf5Iterator.next it).1 = .ok s)
    (hj : it.shape.get? j = some none) :
    it.h5_items.get? s.itemIdx = some s.itemShape ∧
    (∃ hv, s.itemShape.get? j = some hv) ∧
    s.shape.get? j = s.itemShape.get? j := by
  obtain ⟨resolved, rng0, hmem, hres, htb, hsl, hsr⟩ := next_ok_spec it s hok
  obtain ⟨hv, hiv, hrv⟩ := resolveShape_wild _ _ _ j hres hj
  refine ⟨hmem, ⟨hv, hiv⟩, ?_⟩
  by_cases hc : j < s.slices.length
  · have hz3 : j < (zip3 s.itemShape resolved it.pos).length := by
      rw [hsl, chooseSlices_length] at hc
      exact hc
    have hjp : j < it.pos.length := by
      rw [zip3_length] at hz3
      omega
    obtain ⟨wp, hwp⟩ := get?_of_lt it.pos j hjp
    have hz := zip3_get _ _ _ j hv hv wp hiv hrv hwp
    obtain ⟨st, hst, -, -⟩ := chooseSlices_get _ rng0 j hv hv wp hz
    rw [← hsl] at hst
    have hshk := storeRead_get_lt _ _ _ hsr j hv st (st + hv) hiv hst
    rw [hshk, hiv]
    congr 1
    omega
  · exact storeRead_get_ge _ _ _ hsr j (by omega)

theorem c4_wildcard_dims_witness :
    (Hdf5Iterator.next ⟨"f", [[4]], ⟨fun _ => 0, 0⟩, [none], [none]⟩).1
      = .ok ⟨0, [4], [(0, 4)], [4]⟩ ∧
    ([[4]] : List ItemShape).get? (0 : Nat) = some [4] ∧
    (∃ hv, ([4] : List Nat).get? (0 : Nat) = some hv) ∧
    ([4] : List Nat).get? (0 : Nat) = ([4] : List Nat).get? (0 : Nat) := by
  refine ⟨rfl, ?_⟩
  exact c4_wildcard_dims ⟨"f", [[4]], ⟨fun _ => 0, 0⟩, [none], [none]⟩
    ⟨0, [4], [(0, 4)], [4]⟩ 0 rfl (by decide)

/-- C5: with an all-wildcard Position Specification, every chosen start
offset satisfies `start + resolved_extent ≤ actual_extent` (hence
`0 ≤ start ≤ actual_extent − resolved_extent`), and in the degenerate case
where the resolved extent equals the actual extent the single valid offset 0
is chosen, without error. -/
theorem c5_offsets_in_range (it : Hdf5Iterator) (s : Sample) (j st en hv : Nat)
    (hpos : ∀ o ∈ it.pos, o = none)
    (hok : (Hdf5Iterator.next it).1 = .ok s)
    (hsl0 : s.slices.get? j = some (st, en))
    (hiv : s.itemShape.get? j = some hv) :
    st + (en - st) ≤ hv ∧ st ≤ hv - (en - st) ∧ (en - st = hv → st = 0) := by
  obtain ⟨resolved, rng0, hmem, hres, htb, hsl, hsr⟩ := next_ok_spec it s hok
  have hc : j < s.slices.length := (List.get?_eq_some.mp hsl0).fst
  have hz3 : j < (zip3 s.itemShape resolved it.pos).length := by
    rw [hsl, chooseSlices_length] at hc
    exact hc
  obtain ⟨t, ht⟩ := get?_of_lt _ j hz3
  obtain ⟨hti, htr, htp⟩ := zip3_get' _ _ _ j t.1 t.2.1 t.2.2 ht
  have hwp : t.2.2 = none := hpos _ (List.get?_mem htp)
  obtain ⟨st2, hst2, hw, -⟩ := chooseSlices_get _ rng0 j t.1 t.2.1 t.2.2 ht
  rw [← hsl] at hst2
  rw [hsl0] at hst2
  have hpair : (st, en) = (st2, st2 + t.2.1) := Option.some.inj hst2
  injection hpair with he1 he2
  have hiv2 := hiv
  rw [hti] at hiv2
  have ht1 : t.1 = hv := Option.some.inj hiv2
  have hwle : t.2.1 ≤ t.1 := sliceTooBig_le _ _ htb j t.1 t.2.1 hti htr
  have hlt : st2 < t.1 - t.2.1 + 1 := hw hwp
  omega

theorem c5_offsets_in_range_witness :
    (∀ o ∈ ([none] : List (Option Nat)), o = none) ∧
    (0 + ((4 : Nat) - 0) ≤ 4 ∧ (0 : Nat) ≤ 4 - (4 - 0) ∧ ((4 : Nat) - 0 = 4 → (0 : Nat) = 0)) :=
  ⟨by decide,
    c5_offsets_in_range ⟨"f", [[4]], ⟨fun _ => 0, 0⟩, [none], [none]⟩
      ⟨0, [4], [(0, 4)], [4]⟩ 0 0 4 4 (by decide) rfl (by decide) (by decide)⟩

/-- C6: an explicit (concrete) Position Specification entry is used verbatim
as the start offset — in any returned sample, the slice start on such a
dimension equals the specified position, with no bounds validation by the
sampler — and an out-of-range explicit position is never caught or
reinterpreted: when the explicit range `[p, p + v)` overruns every item, the
sampling call surfaces the Item-Store-level read error itself. -/
theorem c6_explicit_positions :
    (∀ (it : Hdf5Iterator) (s : Sample) (j p st en : Nat),
        (Hdf5Iterator.next it).1 = .ok s →
        it.pos.get? j = some (some p) →
        s.slices.get? j = some (st, en) → st = p) ∧
    (∀ (it : Hdf5Iterator) (j p v : Nat),
        it.h5_items.length ≠ 0 →
        (∀ item ∈ it.h5_items, it.shape.length ≤ item.length) →
        (∀ item ∈ it.h5_items, ∀ k w hv, it.shape.get? k = some (some w) →
          item.get? k = some hv → w ≤ hv) →
        it.shape.get? j = some (some v) →
        it.pos.get? j = some (some p) →
        (∀ item ∈ it.h5_items, ∀ hv, item.get? j = some hv → hv < p + v) →
        (Hdf5Iterator.next it).1 = .error .storeError) := by
  constructor
  · intro it s j p st en hok hpj hsl0
    obtain ⟨resolved, rng0, hmem, hres, htb, hsl, hsr⟩ := next_ok_spec it s hok
    have hc : j < s.slices.length := (List.get?_eq_some.mp hsl0).fst
    have hz3 : j < (zip3 s.itemShape resolved it.pos).length := by
      rw [hsl, chooseSlices_length] at hc
      exact hc
    obtain ⟨t, ht⟩ := get?_of_lt _ j hz3
    obtain ⟨hti, htr, htp⟩ := zip3_get' _ _ _ j t.1 t.2.1 t.2.2 ht
    rw [hpj] at htp
    have hps : t.2.2 = some p := (Option.some.inj htp).symm
    obtain ⟨st2, hst2, -, hpe⟩ := chooseSlices_get _ rng0 j t.1 t.2.1 t.2.2 ht
    have hstp : st2 = p := hpe p hps
    rw [← hsl] at hst2
    rw [hsl0] at hst2
    have hpair : (st, en) = (st2, st2 + t.2.1) := Option.some.inj hst2
    injection hpair with he1 he2
    omega
  · intro it j p v hne hrank hfit hsj hpj hbig
    obtain ⟨r, hat⟩ := attempt_fail_store it.h5_items it.shape it.pos it.rng
      j p v hne hrank hfit hsj hpj hbig
    exact next_fail_of_attempt it .storeError r hat

theorem c6_explicit_positions_witness :
    ((1 : Nat) = 1) ∧
    (Hdf5Iterator.next ⟨"f", [[5]], ⟨fun _ => 0, 0⟩, [some 2], [some 9]⟩).1
      = .error .storeError := by
  constructor
  · exact c6_explicit_positions.1
      ⟨"f", [[5]], ⟨fun _ => 0, 0⟩, [some 2], [some 1]⟩
      ⟨0, [5], [(1, 3)], [2]⟩ 0 1 1 3 rfl (by decide) (by decide)
  · apply c6_explicit_positions.2
      ⟨"f", [[5]], ⟨fun _ => 0, 0⟩, [some 2], [some 9]⟩ 0 9 2
      (by decide) (by decide)
    · intro item hm k w hv hsj hiv
      have hit : item = [5] := by simpa using hm
      subst hit
      cases k with
      | zero =>
        have h1 : 2 = w := Option.some.inj (Option.some.inj hsj)
        have h2 : 5 = hv := Option.some.inj hiv
        omega
      | succ k1 => exact absurd hsj (by simp)
    · decide
    · decide
    · intro item hm hv hiv
      have hit : item = [5] := by simpa using hm
      subst hit
      have h2 : 5 = hv := Option.some.inj hiv
      omega

/-- C7: a Shape Specification with extent 0 on dimension `j` (all other
dimensions fitting every item, all-wildcard positions) yields a sample
without error whose size is 0 on dimension `j` and equal to the resolved
extent on every dimension (`s.shape = resolved`); the offset on dimension
`j` is drawn from the non-degenerate range `[0, actual_extent]` and the
slice there is empty. -/
theorem c7_zero_extent (it : Hdf5Iterator) (j : Nat)
    (hpos : it.pos = it.shape.map (fun _ => none))
    (hne : it.h5_items.length ≠ 0)
    (hrank : ∀ item ∈ it.h5_items, item.length = it.shape.length)
    (hfit : ∀ item ∈ it.h5_items, ∀ k v hv, it.shape.get? k = some (some v) →
      item.get? k = some hv → v ≤ hv)
    (hj : it.shape.get? j = some (some 0)) :
    ∃ s resolved, (Hdf5Iterator.next it).1 = .ok s ∧
      resolveShape s.itemShape it.shape = some resolved ∧
      s.shape = resolved ∧
      s.shape.get? j = some 0 ∧
      ∃ st hv, s.slices.get? j = some (st, st) ∧
        s.itemShape.get? j = some hv ∧ st ≤ hv := by
  have hposall : ∀ o ∈ it.pos, o = none := by
    rw [hpos]
    intro o ho
    obtain ⟨x, -, hx⟩ := List.mem_map.mp ho
    exact hx.symm
  obtain ⟨s, r, hat⟩ := attempt_success it.h5_items it.shape it.pos it.rng hne
    (fun item hm => Nat.le_of_eq (hrank item hm).symm) hposall hfit
  have hok := next_ok_of_attempt it s r hat
  obtain ⟨resolved, rng0, hmem, hres, htb, hsl, hsr⟩ := next_ok_spec it s hok
  have hranke : s.itemShape.length = it.shape.length := hrank _ (List.get?_mem hmem)
  have hposlen : it.pos.length = it.shape.length := by rw [hpos, List.length_map]
  have hshape := next_ok_shape_resolved it s resolved hok hres hranke hposlen
  have hrv : resolved.get? j = some 0 := resolveShape_concrete _ _ _ j 0 hres hj
  have hjlen : j < it.shape.length := (List.get?_eq_some.mp hj).fst
  obtain ⟨hv, hiv⟩ := get?_of_lt s.itemShape j (by omega)
  have hpk : it.pos.get? j = some none := by
    rw [hpos, List.get?_map, hj]
    rfl
  have hz := zip3_get _ _ _ j hv 0 none hiv hrv hpk
  obtain ⟨st, hst, hw, -⟩ := chooseSlices_get _ rng0 j hv 0 none hz
  rw [← hsl] at hst
  have hstlt : st < hv - 0 + 1 := hw rfl
  refine ⟨s, resolved, hok, hres, hshape, ?_, st, hv, ?_, hiv, by omega⟩
  · rw [hshape]
    exact hrv
  · simpa using hst

theorem c7_zero_extent_witness :
    ∃ s resolved,
      (Hdf5Iterator.next ⟨"f", [[3, 4]], ⟨fun _ => 0, 0⟩,
          [some 0, none], [none, none]⟩).1 = .ok s ∧
      resolveShape s.itemShape [some 0, none] = some resolved ∧
      s.shape = resolved ∧
      s.shape.get? (0 : Nat) = some 0 ∧
      ∃ st hv, s.slices.get? (0 : Nat) = some (st, st) ∧
        s.itemShape.get? (0 : Nat) = some hv ∧ st ≤ hv :=
  c7_zero_extent ⟨"f", [[3, 4]], ⟨fun _ => 0, 0⟩, [some 0, none], [none, none]⟩
    0 (by decide) (by decide) (by decide)
    (by
      intro item hm k v hv hsj hiv
      have hit : item = [3, 4] := by simpa using hm
      subst hit
      cases k with
      | zero =>
        have h1 : 0 = v := Option.some.inj (Option.some.inj hsj)
        omega
      | succ k1 =>
        cases k1 with
        | zero => exact absurd hsj (by simp)
        | succ k2 => exact absurd hsj (by simp))
    (by decide)

/-- C10: when the chosen item has at least as many dimensions as the Shape
Specification (and the Position Specification has the specification's
length), any returned sample was built from exactly `shape.length` slice
ranges — bounds check, resolution and offset selection all zip-truncate to
the first `shape.length` dimensions — the sample keeps the item's full rank,
and on every trailing dimension its extent equals the item's actual extent. -/
theorem c10_trailing_dims (it : Hdf5Iterator) (s : Sample)
    (hok : (Hdf5Iterator.next it).1 = .ok s)
    (hrank : it.shape.length ≤ s.itemShape.length)
    (hposlen : it.pos.length = it.shape.length) :
    s.slices.length = it.shape.length ∧
    s.shape.length = s.itemShape.length ∧
    (∀ k, it.shape.length ≤ k → s.shape.get? k = s.itemShape.get? k) := by
  obtain ⟨resolved, rng0, hmem, hres, htb, hsl, hsr⟩ := next_ok_spec it s hok
  have hreslen := resolveShape_length _ _ _ hres
  have hsll : s.slices.length = it.shape.length := by
    rw [hsl, chooseSlices_length, zip3_length, hreslen, hposlen]
    omega
  refine ⟨hsll, storeRead_length _ _ _ hsr (by omega), ?_⟩
  intro k hk
  exact storeRead_get_ge _ _ _ hsr k (by omega)

theorem c10_trailing_dims_witness :
    ([(0, 2)] : List (Nat × Nat)).length = ([some 2] : List (Option Nat)).length ∧
    ([2, 7] : List Nat).length = ([3, 7] : List Nat).length ∧
    (∀ k, ([some 2] : List (Option Nat)).length ≤ k →
      ([2, 7] : List Nat).get? k = ([3, 7] : List Nat).get? k) :=
  c10_trailing_dims ⟨"f", [[3, 7]], ⟨fun _ => 0, 0⟩, [some 2], [none]⟩
    ⟨0, [3, 7], [(0, 2)], [2, 7]⟩ rfl (by decide) (by decide)
